import Mathlib

/-!
Shallow embedding of `src/Scripnya.py` (a proxy-pool heartbeat supervisor) and
proofs checking the natural-language specification against it.

Modelling conventions:
* JSON-like Python values are the mutual inductive `PyVal`/`PyList`/`PyFields`
  (floats are outside the modelled fragment; JSON numbers are integers here).
  Strings are `List Char`.
* Python exceptions are `Except PyErr`; each modelled operation that can raise
  returns `Except`.
* Network I/O is an oracle passed as an argument: an `HttpOut` value describes
  what one `aiohttp` request did (raised, or returned a status plus the result
  of `await response.json()`).
* Global mutable state (`browser_id`, `account_info`, `status_connect`) is
  threaded explicitly; the session file is an `Option (List Char)` holding the
  raw file contents.
-/

/-- Character constant: double quote. -/
@[reducible] def quoteC : Char := Char.ofNat 34

/-- Character constant: backslash. -/
@[reducible] def backslashC : Char := Char.ofNat 92

/-- Character constant: opening curly brace. -/
@[reducible] def lbraceC : Char := Char.ofNat 123

/-- Character constant: closing curly brace. -/
@[reducible] def rbraceC : Char := Char.ofNat 125

/-- Python exception kinds that the modelled code can raise or observe. -/
inductive PyErr where
  | valueError
  | typeError
  | keyError
  | attributeError
  | indexError
  | netError
  | jsonError
  | exitFatal
deriving DecidableEq, Repr

mutual
/-- JSON-like Python value (the fragment the script manipulates). -/
inductive PyVal where
  | pnone : PyVal
  | pbool : Bool → PyVal
  | pint : Int → PyVal
  | pstr : List Char → PyVal
  | parr : PyList → PyVal
  | pobj : PyFields → PyVal
/-- List of Python values (a Python `list`). -/
inductive PyList where
  | lnil : PyList
  | lcons : PyVal → PyList → PyList
/-- Ordered fields of a Python `dict` with string keys (insertion order). -/
inductive PyFields where
  | fnil : PyFields
  | fcons : List Char → PyVal → PyFields → PyFields
end

/-- Build a `PyList` from a Lean list. -/
def PyList.ofList : List PyVal → PyList
  | [] => .lnil
  | x :: xs => .lcons x (PyList.ofList xs)

/-- Build `PyFields` from a Lean association list. -/
def PyFields.ofList : List (List Char × PyVal) → PyFields
  | [] => .fnil
  | (k, v) :: fs => .fcons k v (PyFields.ofList fs)

/-- Convenience constructor for a Python dict value. -/
def mkObj (fs : List (List Char × PyVal)) : PyVal := .pobj (PyFields.ofList fs)

/-- Convenience constructor for a Python list value. -/
def mkArr (xs : List PyVal) : PyVal := .parr (PyList.ofList xs)

/-- Key "code" (the application-level status marker). -/
def codeKey : List Char := ['c', 'o', 'd', 'e']

/-- Key "data" (the account payload of a create-session response). -/
def dataKey : List Char := ['d', 'a', 't', 'a']

/-- Key "uid" (the account identifier). -/
def uidKey : List Char := ['u', 'i', 'd']

/-- Key "browser_id" (the persisted device identifier field). -/
def bidKey : List Char := ['b', 'r', 'o', 'w', 's', 'e', 'r', '_', 'i', 'd']

/-- Python truthiness (`bool(v)`), as used by `if not resp` and `if session_info`. -/
def pyTruthy : PyVal → Bool
  | .pnone => false
  | .pbool b => b
  | .pint n => n ≠ 0
  | .pstr s => !s.isEmpty
  | .parr .lnil => false
  | .parr (.lcons _ _) => true
  | .pobj .fnil => false
  | .pobj (.fcons _ _ _) => true

/-- Python `v is None` test. -/
def isNone : PyVal → Bool
  | .pnone => true
  | _ => false

/-- Lookup of a string key in dict fields (first match; dict keys are unique). -/
def lookupField : PyFields → List Char → Option PyVal
  | .fnil, _ => Option.none
  | .fcons k v fs, key => if k = key then some v else lookupField fs key

/-- Key-membership test on dict fields. -/
def hasKey (fs : PyFields) (key : List Char) : Bool := (lookupField fs key).isSome

/-- String equality against a Python value: Python `==` between a `str` and any
value; values of a different type compare unequal without raising. -/
def pyStrEq (s : List Char) : PyVal → Bool
  | .pstr t => s = t
  | _ => false

/-- Membership of a string in a Python list (`x in somelist`). -/
def listHasStr (s : List Char) : PyList → Bool
  | .lnil => false
  | .lcons x xs => pyStrEq s x || listHasStr s xs

/-- Leading-match test: does `s` start with `pat`? -/
def startsWithL : List Char → List Char → Bool
  | [], _ => true
  | _ :: _, [] => false
  | p :: ps, c :: cs => p = c && startsWithL ps cs

/-- Substring test (Python `sub in somestring`). -/
def isSubstr (pat : List Char) : List Char → Bool
  | [] => startsWithL pat []
  | c :: cs => startsWithL pat (c :: cs) || isSubstr pat cs

/-- Python `key in container` for a string needle: dict key membership, list
element membership, substring test on strings; `TypeError` on non-containers. -/
def pyInStr (key : List Char) : PyVal → Except PyErr Bool
  | .pobj fs => .ok (hasKey fs key)
  | .parr l => .ok (listHasStr key l)
  | .pstr t => .ok (isSubstr key t)
  | _ => .error .typeError

/-- Python `container[key]` for a string key: dict item lookup (`KeyError` when
absent); `TypeError` for string/list/scalar containers. -/
def pyIndexStr (v : PyVal) (key : List Char) : Except PyErr PyVal :=
  match v with
  | .pobj fs =>
    match lookupField fs key with
    | some x => .ok x
    | Option.none => .error .keyError
  | _ => .error .typeError

/-- Python `v < n` against an int: ints compare, bools compare as 0/1, any
other operand raises `TypeError` (e.g. `None < 0`). -/
def pyLtInt (v : PyVal) (n : Int) : Except PyErr Bool :=
  match v with
  | .pint m => .ok (m < n)
  | .pbool b => .ok ((if b then (1 : Int) else 0) < n)
  | _ => .error .typeError

/-- Python `v == n` against an int: numeric equality across int/bool, any
other type compares unequal without raising. -/
def pyEqInt (v : PyVal) (n : Int) : Bool :=
  match v with
  | .pint m => m = n
  | .pbool b => (if b then (1 : Int) else 0) = n
  | _ => false

/-- Python `v.get(key)` (dict method, default `None`); `AttributeError` when
`v` is not a dict. -/
def pyGetMeth (v : PyVal) (key : List Char) : Except PyErr PyVal :=
  match v with
  | .pobj fs => .ok ((lookupField fs key).getD .pnone)
  | _ => .error .attributeError

/-- Python `v.get(key, default)` (dict method with explicit default);
`AttributeError` when `v` is not a dict.  Note the default is returned only
when the key is absent — a key present with value `None` yields `None`. -/
def pyGetMethD (v : PyVal) (key : List Char) (dflt : PyVal) : Except PyErr PyVal :=
  match v with
  | .pobj fs => .ok ((lookupField fs key).getD dflt)
  | _ => .error .attributeError

/-- Embedding of `valid_resp` (src/Scripnya.py lines 39-42):
`if not resp or "code" not in resp or resp["code"] < 0: raise ValueError`,
with Python's own semantics for truthiness, `in` and `<` (which can raise
`TypeError` on their own). -/
def valid_resp (resp : PyVal) : Except PyErr PyVal :=
  if pyTruthy resp = false then .error .valueError
  else
    match pyInStr codeKey resp with
    | .error e => .error e
    | .ok has =>
      if has = false then .error .valueError
      else
        match pyIndexStr resp codeKey with
        | .error e => .error e
        | .ok c =>
          match pyLtInt c 0 with
          | .error e => .error e
          | .ok lt => if lt then .error .valueError else .ok resp

/-- CONNECTION_STATES["CONNECTED"]. -/
def CONNECTED : Nat := 1

/-- CONNECTION_STATES["DISCONNECTED"]. -/
def DISCONNECTED : Nat := 2

/-- CONNECTION_STATES["NONE_CONNECTION"], the initial `status_connect`. -/
def NONE_CONNECTION : Nat := 3

/-- Shared mutable globals touched by the per-proxy task body. -/
structure Globals where
  browser_id : PyVal
  account_info : PyVal

/-- Initial globals: `browser_id = None`, `account_info = {}`. -/
def initGlobals : Globals := ⟨.pnone, mkObj []⟩

/-- Outcome of one `aiohttp` request: the request itself raised, or it returned
an HTTP status together with the result of `await response.json()` (which can
itself raise, e.g. on a malformed body). -/
inductive HttpOut where
  | herr : PyErr → HttpOut
  | hresp : Nat → Except PyErr PyVal → HttpOut

/-- Embedding of `handle_ping` (src/Scripnya.py lines 97-123).  Input: the
globals (the `data` payload reads `account_info.get("uid")`, which raises when
`account_info` is not a dict — caught by the task's `except`), the request
outcome, and the current `status_connect`.  Output: the boolean return value
and the new `status_connect`.  Every exception inside the body is caught and
turned into `False` with the state unchanged. -/
def handle_ping (g : Globals) (http : HttpOut) (st : Nat) : Bool × Nat :=
  match pyGetMeth g.account_info uidKey with
  | .error _ => (false, st)
  | .ok _ =>
    match http with
    | .herr _ => (false, st)
    | .hresp status body =>
      if status = 200 then
        match body with
        | .error _ => (false, st)
        | .ok j =>
          match valid_resp j with
          | .error _ => (false, st)
          | .ok _ =>
            match pyIndexStr j codeKey with
            | .error _ => (false, st)
            | .ok c => if pyEqInt c 0 then (true, CONNECTED) else (false, st)
      else (false, st)

/-- Decimal digits of a natural number, least significant first, with
structural fuel so that the definition reduces by `rfl`. -/
def natDigitsRev : Nat → Nat → List Nat
  | 0, _ => []
  | _ + 1, 0 => []
  | fu + 1, n + 1 => ((n + 1) % 10) :: natDigitsRev fu ((n + 1) / 10)

/-- Decimal digit characters of a natural number, most significant first
(matching Python's `repr` of a non-negative int). -/
def natChars (n : Nat) : List Char :=
  if n = 0 then ['0']
  else (natDigitsRev n n).reverse.map (fun d => Char.ofNat (48 + d))

/-- Serialization of a Python int (Python `repr`). -/
def serInt (n : Int) : List Char :=
  if n < 0 then '-' :: natChars n.natAbs else natChars n.natAbs

mutual
/-- Embedding of `json.dump`'s output for one value, with Python's default
separators (", " between items, ": " after keys). -/
def serVal : PyVal → List Char
  | .pnone => ['n', 'u', 'l', 'l']
  | .pbool true => ['t', 'r', 'u', 'e']
  | .pbool false => ['f', 'a', 'l', 's', 'e']
  | .pint n => serInt n
  | .pstr s => quoteC :: (s ++ [quoteC])
  | .parr l => '[' :: (serElems l ++ [']'])
  | .pobj fs => lbraceC :: (serFields fs ++ [rbraceC])
/-- Serialized list elements (joined with ", "). -/
def serElems : PyList → List Char
  | .lnil => []
  | .lcons x xs => serVal x ++ serElemsTail xs
/-- Serialized list elements after the first one. -/
def serElemsTail : PyList → List Char
  | .lnil => []
  | .lcons x xs => ',' :: ' ' :: (serVal x ++ serElemsTail xs)
/-- Serialized dict fields (joined with ", ", key then ": " then value). -/
def serFields : PyFields → List Char
  | .fnil => []
  | .fcons k v fs => quoteC :: (k ++ quoteC :: ':' :: ' ' :: (serVal v ++ serFieldsTail fs))
/-- Serialized dict fields after the first one. -/
def serFieldsTail : PyFields → List Char
  | .fnil => []
  | .fcons k v fs =>
    ',' :: ' ' :: quoteC :: (k ++ quoteC :: ':' :: ' ' :: (serVal v ++ serFieldsTail fs))
end

/-- Whitespace recognized by the JSON grammar. -/
def isWsC (c : Char) : Bool := c = ' ' || c = Char.ofNat 9 || c = Char.ofNat 10 || c = Char.ofNat 13

/-- Drop leading JSON whitespace. -/
def skipWs : List Char → List Char
  | [] => []
  | c :: r => if isWsC c then skipWs r else c :: r

/-- Consume an expected literal sequence of characters. -/
def dropLead : List Char → List Char → Option (List Char)
  | [], s => some s
  | _ :: _, [] => Option.none
  | p :: ps, c :: cs => if c = p then dropLead ps cs else Option.none

/-- Parse the body of a JSON string after the opening quote, up to the closing
quote.  Escape sequences are outside the modelled fragment and fail. -/
def parseStrBody : List Char → Option (List Char × List Char)
  | [] => Option.none
  | c :: r =>
    if c = quoteC then some ([], r)
    else if c = backslashC then Option.none
    else
      match parseStrBody r with
      | some (cs, r2) => some (c :: cs, r2)
      | Option.none => Option.none

/-- Numeric value of a run of decimal digit characters (most significant
first). -/
def digitsVal (ds : List Char) : Nat :=
  ds.foldl (fun a c => 10 * a + (c.toNat - 48)) 0

/-- Parse a non-empty run of decimal digits. -/
def parseDigits (s : List Char) : Option (Nat × List Char) :=
  let ds := s.takeWhile Char.isDigit
  if ds.isEmpty then Option.none
  else some (digitsVal ds, s.dropWhile Char.isDigit)

mutual
/-- Fuel-bounded recursive-descent JSON parser for one value.  The input is
assumed to have no leading whitespace (callers skip it). -/
def parseVal : Nat → List Char → Option (PyVal × List Char)
  | 0, _ => Option.none
  | fu + 1, s =>
    match s with
    | [] => Option.none
    | c :: r =>
      if c = quoteC then
        match parseStrBody r with
        | some (cs, r2) => some (.pstr cs, r2)
        | Option.none => Option.none
      else if c = '[' then
        match skipWs r with
        | [] => Option.none
        | c1 :: r1 =>
          if c1 = ']' then some (.parr .lnil, r1)
          else
            match parseVal fu (c1 :: r1) with
            | some (v, r2) =>
              match parseElemsTail fu r2 with
              | some (vs, r3) => some (.parr (.lcons v vs), r3)
              | Option.none => Option.none
            | Option.none => Option.none
      else if c = lbraceC then
        match skipWs r with
        | c2 :: r2 =>
          if c2 = rbraceC then some (.pobj .fnil, r2)
          else if c2 = quoteC then
            match parseStrBody r2 with
            | some (k, r3) =>
              match skipWs r3 with
              | ':' :: r4 =>
                match parseVal fu (skipWs r4) with
                | some (v, r5) =>
                  match parseFieldsTail fu r5 with
                  | some (fs, r6) => some (.pobj (.fcons k v fs), r6)
                  | Option.none => Option.none
                | Option.none => Option.none
              | _ => Option.none
            | Option.none => Option.none
          else Option.none
        | [] => Option.none
      else if c = '-' then
        match parseDigits r with
        | some (n, r2) => some (.pint (-(n : Int)), r2)
        | Option.none => Option.none
      else if c.isDigit then
        match parseDigits (c :: r) with
        | some (n, r2) => some (.pint (n : Int), r2)
        | Option.none => Option.none
      else if c = 'n' then
        match dropLead ['u', 'l', 'l'] r with
        | some r2 => some (.pnone, r2)
        | Option.none => Option.none
      else if c = 't' then
        match dropLead ['r', 'u', 'e'] r with
        | some r2 => some (.pbool true, r2)
        | Option.none => Option.none
      else if c = 'f' then
        match dropLead ['a', 'l', 's', 'e'] r with
        | some r2 => some (.pbool false, r2)
        | Option.none => Option.none
      else Option.none
/-- Parse the remaining elements of a JSON array: either `]` or `,` followed by
a value, repeated. -/
def parseElemsTail : Nat → List Char → Option (PyList × List Char)
  | 0, _ => Option.none
  | fu + 1, s =>
    match skipWs s with
    | ']' :: r => some (.lnil, r)
    | ',' :: r =>
      match parseVal fu (skipWs r) with
      | some (v, r2) =>
        match parseElemsTail fu r2 with
        | some (vs, r3) => some (.lcons v vs, r3)
        | Option.none => Option.none
      | Option.none => Option.none
    | _ => Option.none
/-- Parse the remaining fields of a JSON object: either the closing brace or
`,` followed by a key-value pair, repeated. -/
def parseFieldsTail : Nat → List Char → Option (PyFields × List Char)
  | 0, _ => Option.none
  | fu + 1, s =>
    match skipWs s with
    | c :: r =>
      if c = rbraceC then some (.fnil, r)
      else if c = ',' then
        match skipWs r with
        | c2 :: r2 =>
          if c2 = quoteC then
            match parseStrBody r2 with
            | some (k, r3) =>
              match skipWs r3 with
              | ':' :: r4 =>
                match parseVal fu (skipWs r4) with
                | some (v, r5) =>
                  match parseFieldsTail fu r5 with
                  | some (fs, r6) => some (.fcons k v fs, r6)
                  | Option.none => Option.none
                | Option.none => Option.none
              | _ => Option.none
            | Option.none => Option.none
          else Option.none
        | [] => Option.none
      else Option.none
    | [] => Option.none
end

/-- Embedding of `json.load` on raw file contents: parse one JSON value with
optional surrounding whitespace; `Option.none` models a raised decode error. -/
def parseJson (s : List Char) : Option PyVal :=
  match parseVal (s.length + 1) (skipWs s) with
  | some (v, r) => if skipWs r = [] then some v else Option.none
  | Option.none => Option.none

/-- Embedding of `load_session_info` (src/Scripnya.py lines 65-75): absent file
or a parse failure yields Python `None`; otherwise the parsed value. -/
def load_session_info (file : Option (List Char)) : PyVal :=
  match file with
  | Option.none => .pnone
  | some s =>
    match parseJson s with
    | some v => v
    | Option.none => .pnone

/-- Embedding of `save_session_info` (src/Scripnya.py lines 78-81): the file
after the write holds exactly the serialization of the record. -/
def save_session_info (data : PyVal) : Option (List Char) := some (serVal data)

/-- Result of one run of the per-proxy task body: its outcome (return value or
the exception it raised), the globals afterwards, and the session file
afterwards. -/
structure RenderOut where
  outcome : Except PyErr PyVal
  g : Globals
  file : Option (List Char)

/-- Embedding of the `else` branch of `render_profile_info` (session absent or
falsy): `browser_id = uuidv4()` then the create-session POST.  `fresh` is the
generated UUID string, `http` the request outcome.  No `try` surrounds this
code in the source: every raise propagates out of the task body. -/
def renderEstablish (file : Option (List Char)) (fresh : List Char) (http : HttpOut)
    (g : Globals) : RenderOut :=
  let bid : PyVal := .pstr fresh
  match http with
  | .herr e => ⟨.error e, ⟨bid, g.account_info⟩, file⟩
  | .hresp status body =>
    if status = 200 then
      match body with
      | .error e => ⟨.error e, ⟨bid, g.account_info⟩, file⟩
      | .ok j =>
        match valid_resp j with
        | .error e => ⟨.error e, ⟨bid, g.account_info⟩, file⟩
        | .ok _ =>
          match pyGetMethD j dataKey (mkObj []) with
          | .error e => ⟨.error e, ⟨bid, g.account_info⟩, file⟩
          | .ok ai =>
            match pyGetMeth ai uidKey with
            | .error e => ⟨.error e, ⟨bid, ai⟩, file⟩
            | .ok uid =>
              if pyTruthy uid then ⟨.ok ai, ⟨bid, ai⟩, save_session_info ai⟩
              else ⟨.ok ai, ⟨bid, ai⟩, file⟩
    else ⟨.ok g.account_info, ⟨bid, g.account_info⟩, file⟩

/-- Embedding of `render_profile_info` (src/Scripnya.py lines 126-148).  Reads
the session file; when the loaded value is truthy it is adopted as
`account_info` and its `browser_id` field becomes the global `browser_id`
(raising `AttributeError` when the value is not a dict); otherwise a session
is established over the network.  Returns `account_info`. -/
def render_profile_info (file : Option (List Char)) (fresh : List Char) (http : HttpOut)
    (g : Globals) : RenderOut :=
  if pyTruthy (load_session_info file) then
    match pyGetMeth (load_session_info file) bidKey with
    | .error e => ⟨.error e, ⟨g.browser_id, load_session_info file⟩, file⟩
    | .ok b => ⟨.ok (load_session_info file), ⟨b, load_session_info file⟩, file⟩
  else renderEstablish file fresh http g

/-- Embedding of `is_valid_proxy` (src/Scripnya.py lines 84-94): the network
oracle gives the GET's HTTP status, or `Option.none` when the request raised;
the proxy is valid exactly when the status is 200.  Every failure is caught
and yields `false`. -/
def is_valid_proxy (netResult : Option Nat) : Bool :=
  match netResult with
  | some status => if status = 200 then true else false
  | Option.none => false

/-- Embedding of the startup validation loop of `main` (src/Scripnya.py lines
158-161): `active_proxies` accumulates, in input order, the proxies for which
`is_valid_proxy` returned true. -/
def buildActive (proxies : List String) (net : String → Option Nat) : List String :=
  match proxies with
  | [] => []
  | p :: ps =>
    if is_valid_proxy (net p) then p :: buildActive ps net else buildActive ps net

/-- Embedding of `main`'s startup phase (src/Scripnya.py lines 151-167): empty
token exits fatally; then candidates are filtered; zero validated proxies exits
fatally; otherwise the active list is returned for the polling phase. -/
def mainStartup (token : String) (proxies : List String) (net : String → Option Nat) :
    Except PyErr (List String) :=
  if token = "" then .error .exitFatal
  else
    let active := buildActive proxies net
    if active.isEmpty then .error .exitFatal else .ok active

/-- Startup composed with an arbitrary continuation standing for the polling
loop: the loop runs only when startup succeeds. -/
def mainRun (token : String) (proxies : List String) (net : String → Option Nat)
    (loopFn : List String → Except PyErr Unit) : Except PyErr Unit :=
  match mainStartup token proxies net with
  | .error e => .error e
  | .ok active => loopFn active

/-- Python dict key in the supervisor's `tasks` dict: keys written by the code
are proxy strings, while lookups are performed with task objects; the two are
never equal. -/
inductive PyKey where
  | kstr : String → PyKey
  | ktask : Nat → PyKey
deriving DecidableEq

/-- Dict lookup (`d[k]` read side yields `Option`, `Option.none` = `KeyError`). -/
def dictGet : List (PyKey × PyKey) → PyKey → Option PyKey
  | [], _ => Option.none
  | (k', v) :: d, k => if k' = k then some v else dictGet d k

/-- Dict assignment `d[k] = v`: replaces in place when the key exists,
otherwise appends (Python insertion order). -/
def dictSet : List (PyKey × PyKey) → PyKey → PyKey → List (PyKey × PyKey)
  | [], k, v => [(k, v)]
  | (k', v') :: d, k, v => if k' = k then (k, v) :: d else (k', v') :: dictSet d k v

/-- Dict `d.pop(k)`: removes the entry, `Option.none` = `KeyError` when absent. -/
def dictPop : List (PyKey × PyKey) → PyKey → Option (List (PyKey × PyKey))
  | [], _ => Option.none
  | (k', v') :: d, k =>
    if k' = k then some d
    else
      match dictPop d k with
      | some d' => some ((k', v') :: d')
      | Option.none => Option.none

/-- Python `somelist.remove(x)`: removes the first occurrence, `Option.none` =
`ValueError` when absent. -/
def listRemove : List PyKey → PyKey → Option (List PyKey)
  | [], _ => Option.none
  | x :: xs, y =>
    if x = y then some xs
    else
      match listRemove xs y with
      | some xs' => some (x :: xs')
      | Option.none => Option.none

/-- Python `somelist.pop(0)`: first element and remainder, `Option.none` =
`IndexError` on an empty list. -/
def listPop0 : List PyKey → Option (PyKey × List PyKey)
  | [] => Option.none
  | x :: xs => some (x, xs)

/-- State of `main`'s polling loop: the candidate list `all_proxies` (which
replacement pops from), `active_proxies`, the `tasks` dict (keyed by the
proxy string, valued by the task object), and a counter for fresh task ids. -/
structure LoopState where
  all_proxies : List PyKey
  active_proxies : List PyKey
  tasks : List (PyKey × PyKey)
  fresh : Nat
deriving DecidableEq

/-- Embedding of the body of `for task in done:` for one completed task
(src/Scripnya.py lines 175-183), with `results t` giving what `task.result()`
would produce (`Except.error` = the task raised, re-raised by `result()`).
The first statement, `proxy = tasks[task]`, looks the task object up in a dict
whose keys are proxy strings. -/
def processOne (results : Nat → Except PyErr PyVal) (st : LoopState) (t : Nat) :
    Except PyErr LoopState :=
  match dictGet st.tasks (.ktask t) with
  | Option.none => .error .keyError
  | some proxy =>
    match results t with
    | .error e => .error e
    | .ok v =>
      if isNone v then
        match listRemove st.active_proxies proxy with
        | Option.none => .error .valueError
        | some active' =>
          match listPop0 st.all_proxies with
          | Option.none => .error .indexError
          | some (newP, all') =>
            let tasks' := dictSet st.tasks newP (.ktask st.fresh)
            match dictPop tasks' (.ktask t) with
            | Option.none => .error .keyError
            | some tasks'' =>
              .ok ⟨all', active' ++ [newP], tasks'', st.fresh + 1⟩
      else
        match dictPop st.tasks (.ktask t) with
        | Option.none => .error .keyError
        | some tasks' => .ok ⟨st.all_proxies, st.active_proxies, tasks', st.fresh⟩

/-- Sequential processing of the `done` set (a `for` loop that aborts at the
first uncaught exception). -/
def forDone (results : Nat → Except PyErr PyVal) : LoopState → List Nat →
    Except PyErr LoopState
  | st, [] => .ok st
  | st, t :: ts =>
    match processOne results st t with
    | .error e => .error e
    | .ok st' => forDone results st' ts

/-- Embedding of the re-arm loop (src/Scripnya.py lines 185-187): every active
proxy without a task in the dict gets a fresh task. -/
def rearmGo : List PyKey → List (PyKey × PyKey) → Nat → List (PyKey × PyKey) × Nat
  | [], d, f => (d, f)
  | p :: ps, d, f =>
    if (dictGet d p).isSome then rearmGo ps d f
    else rearmGo ps (dictSet d p (.ktask f)) (f + 1)

/-- Re-arm phase applied to a loop state. -/
def rearm (st : LoopState) : LoopState :=
  let df := rearmGo st.active_proxies st.tasks st.fresh
  ⟨st.all_proxies, st.active_proxies, df.1, df.2⟩

/-- One full cycle of the polling loop (src/Scripnya.py lines 173-189):
`asyncio.wait` raises `ValueError` on an empty task set; otherwise the `done`
tasks are processed and the remaining active proxies re-armed. -/
def cycleStep (results : Nat → Except PyErr PyVal) (st : LoopState) (done : List Nat) :
    Except PyErr LoopState :=
  if st.tasks.isEmpty then .error .valueError
  else
    match forDone results st done with
    | .error e => .error e
    | .ok st' => .ok (rearm st')

/-- Initial `tasks` dict built before the loop (src/Scripnya.py lines 169-171):
one task per active proxy, keyed by the proxy string. -/
def initTasks : List String → Nat → List (PyKey × PyKey)
  | [], _ => []
  | p :: ps, f => (.kstr p, .ktask f) :: initTasks ps (f + 1)

/-- Loop state right after startup: `all_proxies` is the full candidate list
(validated proxies are never removed from it), `active_proxies` the validated
ones, and one task per active proxy. -/
def initState (allP activeP : List String) : LoopState :=
  ⟨allP.map .kstr, activeP.map .kstr, initTasks activeP 0, activeP.length⟩

/-- Condition on a parser remainder: it does not begin with a digit (so the
greedy number parser stops exactly at the serialized number's end). -/
def noDigitHead : List Char → Bool
  | [] => true
  | c :: _ => !c.isDigit

/-- Characters allowed in the modelled JSON strings: printable ASCII with no
quote or backslash (what Python's default `json.dump` writes unescaped). -/
def goodChar (c : Char) : Bool :=
  32 ≤ c.toNat && c.toNat ≤ 126 && c ≠ quoteC && c ≠ backslashC

/-- String well-formedness: every character is escape-free. -/
def goodStr (s : List Char) : Bool := s.all goodChar

mutual
/-- Well-formedness of a value for serialization round-trips: every string in
it (including object keys) is escape-free printable ASCII. -/
def wfVal : PyVal → Bool
  | .pnone => true
  | .pbool _ => true
  | .pint _ => true
  | .pstr s => goodStr s
  | .parr l => wfList l
  | .pobj fs => wfFields fs
/-- Well-formedness of a list value. -/
def wfList : PyList → Bool
  | .lnil => true
  | .lcons x xs => wfVal x && wfList xs
/-- Well-formedness of dict fields. -/
def wfFields : PyFields → Bool
  | .fnil => true
  | .fcons k v fs => goodStr k && wfVal v && wfFields fs
end

mutual
/-- Size measure driving the parser fuel bound. -/
def szV : PyVal → Nat
  | .pnone => 1
  | .pbool _ => 1
  | .pint _ => 1
  | .pstr _ => 1
  | .parr l => szL l + 1
  | .pobj fs => szF fs + 1
/-- Size measure for list values. -/
def szL : PyList → Nat
  | .lnil => 0
  | .lcons x xs => szV x + szL xs + 1
/-- Size measure for dict fields. -/
def szF : PyFields → Nat
  | .fnil => 0
  | .fcons _ v fs => szV v + szF fs + 1
end

/-- All keys of a tasks dict are proxy strings (as written by the code). -/
def kstrOnly (d : List (PyKey × PyKey)) : Prop :=
  ∀ kv ∈ d, ∃ s, kv.1 = PyKey.kstr s

/-- Success condition of one heartbeat, read off the embedded `handle_ping`:
building the request payload did not raise, the HTTP layer returned status
200 with a parseable body that passes `valid_resp`, and the status marker
Python-equals 0. -/
def pingSuccess (g : Globals) (http : HttpOut) : Prop :=
  (∃ u, pyGetMeth g.account_info uidKey = .ok u)
  ∧ ∃ j c, http = .hresp 200 (.ok j) ∧ valid_resp j = .ok j
      ∧ pyIndexStr j codeKey = .ok c ∧ pyEqInt c 0 = true

/-- Claim-side predicate: the response has no "code" field (non-dicts have no
fields at all). -/
def respLacksCode : PyVal → Bool
  | .pobj fs => !hasKey fs codeKey
  | _ => true

/-- Claim-side predicate: the response's "code" field is a negative number. -/
def respCodeNegative : PyVal → Bool
  | .pobj fs =>
    match lookupField fs codeKey with
    | some (.pint n) => n < 0
    | _ => false
  | _ => false

/-- Domain restriction for the amended C10: the response is falsy, or a dict
whose "code" field (when present) is numeric (int or bool).  Outside this
domain `valid_resp` raises `TypeError` instead of behaving as the claim
describes. -/
def codeFieldNumeric : PyVal → Bool
  | .pobj fs =>
    match lookupField fs codeKey with
    | some (.pint _) => true
    | some (.pbool _) => true
    | some _ => false
    | Option.none => true
  | v => !pyTruthy v

/-- With enough fuel, the fueled digit extraction agrees with `Nat.digits`. -/
theorem natDigitsRev_eq_digits : ∀ (fu n : Nat), n ≤ fu → natDigitsRev fu n = Nat.digits 10 n := by
  intro fu
  induction fu with
  | zero =>
    intro n hn
    have h0 : n = 0 := Nat.le_zero.mp hn
    subst h0
    simp [natDigitsRev]
  | succ fu ih =>
    intro n hn
    match n with
    | 0 => simp [natDigitsRev]
    | m + 1 =>
      have hdiv : (m + 1) / 10 ≤ fu := by
        have := Nat.div_lt_self (Nat.succ_pos m) (by norm_num : 1 < 10)
        omega
      rw [natDigitsRev, ih _ hdiv, ← Nat.digits_def' (by norm_num : (1 : ℕ) < 10) (Nat.succ_pos m)]

/-- Character-level digit decoding inverts encoding for digits below 10. -/
theorem toNat_digitChar (d : Nat) (hd : d < 10) : (Char.ofNat (48 + d)).toNat = 48 + d := by
  interval_cases d <;> rfl

/-- Digit characters satisfy `Char.isDigit`. -/
theorem isDigit_digitChar (d : Nat) (hd : d < 10) : (Char.ofNat (48 + d)).isDigit = true := by
  interval_cases d <;> rfl

/-- Folding the character-level accumulator over encoded digits equals folding
the numeric accumulator over the digits themselves. -/
theorem foldl_map_digitChar :
    ∀ (l : List Nat), (∀ d ∈ l, d < 10) → ∀ (a : Nat),
      List.foldl (fun x c => 10 * x + (c.toNat - 48)) a
          (l.map (fun d => Char.ofNat (48 + d)))
        = List.foldl (fun x d => 10 * x + d) a l := by
  intro l
  induction l with
  | nil => intro _ _; rfl
  | cons d t ih =>
    intro h a
    have hd : d < 10 := h d (List.mem_cons_self d t)
    have ht : ∀ x ∈ t, x < 10 := fun x hx => h x (List.mem_cons_of_mem d hx)
    simp only [List.map_cons, List.foldl_cons, toNat_digitChar d hd]
    rw [ih ht]
    congr 1
    omega

/-- Folding the numeric accumulator over reversed little-endian digits
recovers the number (with the accumulator scaled by the base power). -/
theorem foldl_reverse_ofDigits :
    ∀ (l : List Nat) (a : Nat),
      List.foldl (fun x d => 10 * x + d) a l.reverse
        = a * 10 ^ l.length + Nat.ofDigits 10 l := by
  intro l
  induction l with
  | nil => intro a; simp
  | cons d t ih =>
    intro a
    simp only [List.reverse_cons, List.foldl_append, List.foldl_cons, List.foldl_nil, ih,
      Nat.ofDigits_cons, List.length_cons]
    ring

/-- Decoding the decimal encoding of `n` yields `n`. -/
theorem digitsVal_natChars (n : Nat) : digitsVal (natChars n) = n := by
  by_cases h : n = 0
  · subst h; rfl
  · unfold natChars digitsVal
    rw [if_neg h, natDigitsRev_eq_digits n n (le_refl n)]
    rw [foldl_map_digitChar _ (fun d hd => Nat.digits_lt_base (by norm_num) (List.mem_reverse.mp hd))]
    rw [foldl_reverse_ofDigits, Nat.ofDigits_digits]
    simp

/-- Every character of the decimal encoding is a digit. -/
theorem natChars_isDigit (n : Nat) : ∀ c ∈ natChars n, c.isDigit = true := by
  intro c hc
  unfold natChars at hc
  by_cases h : n = 0
  · rw [if_pos h] at hc
    simp only [List.mem_singleton] at hc
    subst hc
    rfl
  · rw [if_neg h, natDigitsRev_eq_digits n n (le_refl n)] at hc
    simp only [List.mem_map, List.mem_reverse] at hc
    obtain ⟨d, hd, rfl⟩ := hc
    exact isDigit_digitChar d (Nat.digits_lt_base (by norm_num) hd)

/-- The decimal encoding is non-empty. -/
theorem natChars_ne_nil (n : Nat) : natChars n ≠ [] := by
  by_cases h : n = 0
  · subst h; simp [natChars]
  · unfold natChars
    rw [if_neg h, natDigitsRev_eq_digits n n (le_refl n)]
    simp only [ne_eq, List.map_eq_nil_iff, List.reverse_eq_nil_iff]
    exact Nat.digits_ne_nil_iff_ne_zero.mpr h

/-- `List.takeWhile` and `List.dropWhile` split an all-digit run followed by a
non-digit remainder exactly at the boundary. -/
theorem takeWhile_digits_append :
    ∀ (xs ys : List Char), (∀ c ∈ xs, c.isDigit = true) → noDigitHead ys = true →
      (xs ++ ys).takeWhile Char.isDigit = xs ∧ (xs ++ ys).dropWhile Char.isDigit = ys := by
  intro xs
  induction xs with
  | nil =>
    intro ys _ hy
    match ys with
    | [] => exact ⟨rfl, rfl⟩
    | c :: t =>
      simp only [noDigitHead, Bool.not_eq_true'] at hy
      constructor
      · simp [List.takeWhile, hy]
      · simp [List.dropWhile, hy]
  | cons x xs ih =>
    intro ys h hy
    have hx : x.isDigit = true := h x (List.mem_cons_self x xs)
    have hxs : ∀ c ∈ xs, c.isDigit = true := fun c hc => h c (List.mem_cons_of_mem x hc)
    obtain ⟨h1, h2⟩ := ih ys hxs hy
    constructor
    · simp [List.takeWhile, hx, h1]
    · simp [List.dropWhile, hx, h2]

/-- Parsing the decimal encoding of `n` followed by a non-digit remainder
yields exactly `n` and that remainder. -/
theorem parseDigits_natChars (n : Nat) (r : List Char) (hr : noDigitHead r = true) :
    parseDigits (natChars n ++ r) = some (n, r) := by
  obtain ⟨h1, h2⟩ := takeWhile_digits_append (natChars n) r (natChars_isDigit n) hr
  unfold parseDigits
  rw [h1, h2]
  simp only [List.isEmpty_eq_true]
  rw [if_neg (natChars_ne_nil n)]
  rw [digitsVal_natChars]

/-- Size measures are positive. -/
theorem szV_pos (v : PyVal) : 1 ≤ szV v := by
  cases v <;> simp [szV]

/-- Parsing the body of a serialized escape-free string consumes exactly the
string and its closing quote. -/
theorem parseStrBody_ser (s : List Char) (hs : goodStr s = true) (r : List Char) :
    parseStrBody (s ++ quoteC :: r) = some (s, r) := by
  induction s with
  | nil => simp [parseStrBody]
  | cons c cs ih =>
    simp only [goodStr, List.all_cons, Bool.and_eq_true] at hs
    obtain ⟨hc, hcs⟩ := hs
    simp only [goodChar, Bool.and_eq_true, decide_eq_true_eq, bne_iff_ne] at hc
    have hq : c ≠ quoteC := hc.1.2
    have hb : c ≠ backslashC := hc.2
    simp only [List.cons_append, parseStrBody, if_neg hq, if_neg hb]
    have hrec : parseStrBody (cs ++ quoteC :: r) = some (cs, r) := ih hcs
    simp [hrec]

/-- Skipping whitespace leaves a list starting with a non-whitespace character
unchanged. -/
theorem skipWs_not_ws (c : Char) (r : List Char) (h : isWsC c = false) :
    skipWs (c :: r) = c :: r := by
  simp [skipWs, h]

/-- Skipping whitespace consumes a leading space. -/
theorem skipWs_space (r : List Char) : skipWs (' ' :: r) = skipWs r := by
  simp [skipWs, isWsC]

/-- Digits are not whitespace. -/
theorem isDigit_not_ws (c : Char) (h : c.isDigit = true) : isWsC c = false := by
  simp only [Char.isDigit, decide_eq_true_eq, Bool.and_eq_true] at h
  simp only [isWsC, Bool.or_eq_false_iff, decide_eq_false_iff_not]
  refine ⟨⟨⟨?_, ?_⟩, ?_⟩, ?_⟩ <;> intro he <;> subst he <;> revert h <;> decide

/-- Digits differ from the characters the parser dispatches on first. -/
theorem isDigit_ne_delims (c : Char) (h : c.isDigit = true) :
    c ≠ quoteC ∧ c ≠ '[' ∧ c ≠ lbraceC ∧ c ≠ '-' := by
  refine ⟨?_, ?_, ?_, ?_⟩ <;> intro he <;> subst he <;> revert h <;> decide

/-- Digits differ from the structural delimiters that can follow a value. -/
theorem isDigit_ne_closers (c : Char) (h : c.isDigit = true) :
    c ≠ ']' ∧ c ≠ rbraceC ∧ c ≠ ',' ∧ c ≠ ':' := by
  refine ⟨?_, ?_, ?_, ?_⟩ <;> intro he <;> subst he <;> revert h <;> decide

/-- Head shape of any serialized value: a non-whitespace character that is not
a closing delimiter, comma or colon. -/
theorem serVal_head (v : PyVal) :
    ∃ c t, serVal v = c :: t ∧ isWsC c = false ∧ c ≠ ']' ∧ c ≠ rbraceC ∧ c ≠ ',' ∧ c ≠ ':' := by
  cases v with
  | pnone => exact ⟨'n', _, rfl, by decide, by decide, by decide, by decide, by decide⟩
  | pbool b =>
    cases b with
    | true => exact ⟨'t', _, rfl, by decide, by decide, by decide, by decide, by decide⟩
    | false => exact ⟨'f', _, rfl, by decide, by decide, by decide, by decide, by decide⟩
  | pint n =>
    by_cases hn : n < 0
    · exact ⟨'-', natChars n.natAbs, by simp [serVal, serInt, hn], by decide, by decide,
        by decide, by decide, by decide⟩
    · obtain ⟨c, t, hct⟩ : ∃ c t, natChars n.natAbs = c :: t := by
        cases he : natChars n.natAbs with
        | nil => exact absurd he (natChars_ne_nil _)
        | cons c t => exact ⟨c, t, rfl⟩
      have hd : c.isDigit = true :=
        natChars_isDigit n.natAbs c (by rw [hct]; exact List.mem_cons_self _ _)
      obtain ⟨hcl1, hcl2, hcl3, hcl4⟩ := isDigit_ne_closers c hd
      exact ⟨c, t, by simp [serVal, serInt, hn, hct], isDigit_not_ws c hd, hcl1, hcl2, hcl3, hcl4⟩
  | pstr s => exact ⟨quoteC, _, rfl, by decide, by decide, by decide, by decide, by decide⟩
  | parr l => exact ⟨'[', _, rfl, by decide, by decide, by decide, by decide, by decide⟩
  | pobj fs => exact ⟨lbraceC, _, rfl, by decide, by decide, by decide, by decide, by decide⟩

/-- Skipping whitespace before a serialized value is the identity (serialized
values never start with whitespace). -/
theorem skipWs_serVal (v : PyVal) (t : List Char) :
    skipWs (serVal v ++ t) = serVal v ++ t := by
  obtain ⟨c, s, hcs, hws, _, _, _, _⟩ := serVal_head v
  rw [hcs, List.cons_append, skipWs_not_ws c _ hws]

/-- Remainders following a serialized array element never start with a digit. -/
theorem noDigitHead_serElemsTail (xs : PyList) (r : List Char) :
    noDigitHead (serElemsTail xs ++ ']' :: r) = true := by
  cases xs with
  | lnil => rfl
  | lcons x xs => rfl

/-- Remainders following a serialized object value never start with a digit. -/
theorem noDigitHead_serFieldsTail (fs : PyFields) (r : List Char) :
    noDigitHead (serFieldsTail fs ++ rbraceC :: r) = true := by
  cases fs with
  | fnil => rfl
  | fcons k v fs => rfl

/-- Reduction of the parser on a leading quote. -/
theorem parseVal_quote_step (fu : Nat) (rest : List Char) :
    parseVal (fu + 1) (quoteC :: rest)
      = (match parseStrBody rest with
         | some (cs, r2) => some (PyVal.pstr cs, r2)
         | Option.none => Option.none) := rfl

/-- Reduction of the parser on a leading opening bracket. -/
theorem parseVal_arrOpen_step (fu : Nat) (rest : List Char) :
    parseVal (fu + 1) ('[' :: rest)
      = (match skipWs rest with
         | [] => Option.none
         | c1 :: r1 =>
           if c1 = ']' then some (PyVal.parr .lnil, r1)
           else
             match parseVal fu (c1 :: r1) with
             | some (v, r2) =>
               (match parseElemsTail fu r2 with
                | some (vs, r3) => some (PyVal.parr (.lcons v vs), r3)
                | Option.none => Option.none)
             | Option.none => Option.none) := rfl

/-- Reduction of the parser on an opening brace followed by a key. -/
theorem parseVal_objField_step (fu : Nat) (rest : List Char) :
    parseVal (fu + 1) (lbraceC :: quoteC :: rest)
      = (match parseStrBody rest with
         | some (k, r3) =>
           (match skipWs r3 with
            | ':' :: r4 =>
              (match parseVal fu (skipWs r4) with
               | some (v, r5) =>
                 (match parseFieldsTail fu r5 with
                  | some (fs, r6) => some (PyVal.pobj (.fcons k v fs), r6)
                  | Option.none => Option.none)
               | Option.none => Option.none)
            | _ => Option.none)
         | Option.none => Option.none) := rfl

/-- Reduction of the parser on a leading minus sign. -/
theorem parseVal_minus_step (fu : Nat) (rest : List Char) :
    parseVal (fu + 1) ('-' :: rest)
      = (match parseDigits rest with
         | some (n, r2) => some (PyVal.pint (-(n : Int)), r2)
         | Option.none => Option.none) := rfl

/-- Reduction of the parser on a leading digit. -/
theorem parseVal_digit_step (fu : Nat) (c : Char) (rest : List Char) (hd : c.isDigit = true) :
    parseVal (fu + 1) (c :: rest)
      = (match parseDigits (c :: rest) with
         | some (n, r2) => some (PyVal.pint (n : Int), r2)
         | Option.none => Option.none) := by
  obtain ⟨hne1, hne2, hne3, hne4⟩ := isDigit_ne_delims c hd
  simp only [parseVal]
  rw [if_neg hne1, if_neg hne2, if_neg hne3, if_neg hne4, if_pos hd]

/-- Reduction of the element-tail parser on a comma. -/
theorem parseElemsTail_comma_step (fu : Nat) (rest : List Char) :
    parseElemsTail (fu + 1) (',' :: rest)
      = (match parseVal fu (skipWs rest) with
         | some (v, r2) =>
           (match parseElemsTail fu r2 with
            | some (vs, r3) => some (PyList.lcons v vs, r3)
            | Option.none => Option.none)
         | Option.none => Option.none) := rfl

/-- Reduction of the field-tail parser on a comma followed by a key. -/
theorem parseFieldsTail_comma_step (fu : Nat) (rest : List Char) :
    parseFieldsTail (fu + 1) (',' :: ' ' :: quoteC :: rest)
      = (match parseStrBody rest with
         | some (k, r3) =>
           (match skipWs r3 with
            | ':' :: r4 =>
              (match parseVal fu (skipWs r4) with
               | some (v, r5) =>
                 (match parseFieldsTail fu r5 with
                  | some (fs, r6) => some (PyFields.fcons k v fs, r6)
                  | Option.none => Option.none)
               | Option.none => Option.none)
            | _ => Option.none)
         | Option.none => Option.none) := rfl

mutual
/-- Round-trip, value level: parsing a serialized well-formed value with
enough fuel consumes exactly its serialization. -/
theorem parseVal_ser (v : PyVal) (hw : wfVal v = true) :
    ∀ (fu : Nat) (r : List Char), szV v < fu → noDigitHead r = true →
      parseVal fu (serVal v ++ r) = some (v, r) := by
  intro fu r hfu hr
  cases v with
  | pnone =>
    cases fu with
    | zero => exact absurd hfu (Nat.not_lt_zero _)
    | succ fu => rfl
  | pbool b =>
    cases fu with
    | zero => exact absurd hfu (Nat.not_lt_zero _)
    | succ fu => cases b <;> rfl
  | pint n =>
    cases fu with
    | zero => exact absurd hfu (Nat.not_lt_zero _)
    | succ fu =>
      by_cases hn : n < 0
      · have hser : serVal (.pint n) ++ r = '-' :: (natChars n.natAbs ++ r) := by
          simp [serVal, serInt, hn]
        rw [hser, parseVal_minus_step, parseDigits_natChars n.natAbs r hr]
        have habs : (-(n.natAbs : Int)) = n := by
          rw [Int.natCast_natAbs, abs_of_neg hn, neg_neg]
        show some (PyVal.pint (-(n.natAbs : Int)), r) = some (PyVal.pint n, r)
        rw [habs]
      · obtain ⟨c, t, hct⟩ : ∃ c t, natChars n.natAbs = c :: t := by
          cases he : natChars n.natAbs with
          | nil => exact absurd he (natChars_ne_nil _)
          | cons c t => exact ⟨c, t, rfl⟩
        have hd : c.isDigit = true :=
          natChars_isDigit n.natAbs c (by rw [hct]; exact List.mem_cons_self _ _)
        have hser : serVal (.pint n) ++ r = c :: (t ++ r) := by
          simp [serVal, serInt, hn, hct]
        rw [hser, parseVal_digit_step fu c _ hd]
        have hback : c :: (t ++ r) = natChars n.natAbs ++ r := by rw [hct]; rfl
        rw [hback, parseDigits_natChars n.natAbs r hr]
        have habs : ((n.natAbs : Int)) = n := by
          rw [Int.natCast_natAbs, abs_of_nonneg (not_lt.mp hn)]
        show some (PyVal.pint ((n.natAbs : Int)), r) = some (PyVal.pint n, r)
        rw [habs]
  | pstr s =>
    cases fu with
    | zero => exact absurd hfu (Nat.not_lt_zero _)
    | succ fu =>
      have hser : serVal (.pstr s) ++ r = quoteC :: (s ++ quoteC :: r) := by
        simp [serVal]
      rw [hser, parseVal_quote_step, parseStrBody_ser s hw r]
  | parr l =>
    cases l with
    | lnil =>
      cases fu with
      | zero => exact absurd hfu (Nat.not_lt_zero _)
      | succ fu => rfl
    | lcons x xs =>
      cases fu with
      | zero => exact absurd hfu (Nat.not_lt_zero _)
      | succ fu =>
        have hwx : wfVal x = true := by
          have := hw
          simp [wfVal, wfList] at this
          exact this.1
        have hwxs : wfList xs = true := by
          have := hw
          simp [wfVal, wfList] at this
          exact this.2
        have hx1 : szV x < fu := by
          simp [szV, szL] at hfu
          omega
        have hx2 : szL xs < fu := by
          simp [szV, szL] at hfu
          have := szV_pos x
          omega
        obtain ⟨c, t, hct, hws, hne1, hne2, hne3, hne4⟩ := serVal_head x
        have hser : serVal (.parr (.lcons x xs)) ++ r
            = '[' :: (c :: (t ++ (serElemsTail xs ++ ']' :: r))) := by
          simp [serVal, serElems, hct]
        have hback : c :: (t ++ (serElemsTail xs ++ ']' :: r))
            = serVal x ++ (serElemsTail xs ++ ']' :: r) := by
          rw [hct]; rfl
        rw [hser, parseVal_arrOpen_step, skipWs_not_ws _ _ hws]
        simp [hne1, hback, parseVal_ser x hwx fu _ hx1 (noDigitHead_serElemsTail xs r),
          parseElemsTail_ser xs hwxs fu r hx2]
  | pobj fs =>
    cases fs with
    | fnil =>
      cases fu with
      | zero => exact absurd hfu (Nat.not_lt_zero _)
      | succ fu => rfl
    | fcons k v fs =>
      cases fu with
      | zero => exact absurd hfu (Nat.not_lt_zero _)
      | succ fu =>
        obtain ⟨⟨hwk, hwv⟩, hwfs⟩ :
            (goodStr k = true ∧ wfVal v = true) ∧ wfFields fs = true := by
          have h3 := hw
          simp [wfVal, wfFields] at h3
          exact h3
        have hv1 : szV v < fu := by
          simp [szV, szF] at hfu
          omega
        have hv2 : szF fs < fu := by
          simp [szV, szF] at hfu
          have := szV_pos v
          omega
        have hser : serVal (.pobj (.fcons k v fs)) ++ r
            = lbraceC :: quoteC ::
                (k ++ quoteC :: ':' :: ' ' :: (serVal v ++ (serFieldsTail fs ++ rbraceC :: r))) := by
          simp [serVal, serFields]
        rw [hser, parseVal_objField_step,
          parseStrBody_ser k hwk (':' :: ' ' :: (serVal v ++ (serFieldsTail fs ++ rbraceC :: r)))]
        have e1 : skipWs (':' :: ' ' :: (serVal v ++ (serFieldsTail fs ++ rbraceC :: r)))
            = ':' :: ' ' :: (serVal v ++ (serFieldsTail fs ++ rbraceC :: r)) := rfl
        have e2 : skipWs (' ' :: (serVal v ++ (serFieldsTail fs ++ rbraceC :: r)))
            = serVal v ++ (serFieldsTail fs ++ rbraceC :: r) := by
          rw [skipWs_space, skipWs_serVal]
        simp [e1, e2, parseVal_ser v hwv fu _ hv1 (noDigitHead_serFieldsTail fs r),
          parseFieldsTail_ser fs hwfs fu r hv2]
/-- Round-trip, element-tail level. -/
theorem parseElemsTail_ser (l : PyList) (hw : wfList l = true) :
    ∀ (fu : Nat) (r : List Char), szL l < fu →
      parseElemsTail fu (serElemsTail l ++ ']' :: r) = some (l, r) := by
  intro fu r hfu
  cases l with
  | lnil =>
    cases fu with
    | zero => exact absurd hfu (Nat.not_lt_zero _)
    | succ fu => rfl
  | lcons x xs =>
    cases fu with
    | zero => exact absurd hfu (Nat.not_lt_zero _)
    | succ fu =>
      have hwx : wfVal x = true := by
        have := hw
        simp [wfList] at this
        exact this.1
      have hwxs : wfList xs = true := by
        have := hw
        simp [wfList] at this
        exact this.2
      have hx1 : szV x < fu := by
        simp [szL] at hfu
        omega
      have hx2 : szL xs < fu := by
        simp [szL] at hfu
        have := szV_pos x
        omega
      have hser : serElemsTail (.lcons x xs) ++ ']' :: r
          = ',' :: (' ' :: (serVal x ++ (serElemsTail xs ++ ']' :: r))) := by
        simp [serElemsTail]
      rw [hser, parseElemsTail_comma_step, skipWs_space, skipWs_serVal]
      simp [parseVal_ser x hwx fu _ hx1 (noDigitHead_serElemsTail xs r),
        parseElemsTail_ser xs hwxs fu r hx2]
/-- Round-trip, field-tail level. -/
theorem parseFieldsTail_ser (fs : PyFields) (hw : wfFields fs = true) :
    ∀ (fu : Nat) (r : List Char), szF fs < fu →
      parseFieldsTail fu (serFieldsTail fs ++ rbraceC :: r) = some (fs, r) := by
  intro fu r hfu
  cases fs with
  | fnil =>
    cases fu with
    | zero => exact absurd hfu (Nat.not_lt_zero _)
    | succ fu => rfl
  | fcons k v fs =>
    cases fu with
    | zero => exact absurd hfu (Nat.not_lt_zero _)
    | succ fu =>
      obtain ⟨⟨hwk, hwv⟩, hwfs⟩ :
          (goodStr k = true ∧ wfVal v = true) ∧ wfFields fs = true := by
        have h3 := hw
        simp [wfFields] at h3
        exact h3
      have hv1 : szV v < fu := by
        simp [szF] at hfu
        omega
      have hv2 : szF fs < fu := by
        simp [szF] at hfu
        have := szV_pos v
        omega
      have hser : serFieldsTail (.fcons k v fs) ++ rbraceC :: r
          = ',' :: ' ' :: quoteC ::
              (k ++ quoteC :: ':' :: ' ' :: (serVal v ++ (serFieldsTail fs ++ rbraceC :: r))) := by
        simp [serFieldsTail]
      rw [hser]
      rw [parseFieldsTail_comma_step,
        parseStrBody_ser k hwk (':' :: ' ' :: (serVal v ++ (serFieldsTail fs ++ rbraceC :: r)))]
      have e1 : skipWs (':' :: ' ' :: (serVal v ++ (serFieldsTail fs ++ rbraceC :: r)))
          = ':' :: ' ' :: (serVal v ++ (serFieldsTail fs ++ rbraceC :: r)) := rfl
      have e2 : skipWs (' ' :: (serVal v ++ (serFieldsTail fs ++ rbraceC :: r)))
          = serVal v ++ (serFieldsTail fs ++ rbraceC :: r) := by
        rw [skipWs_space, skipWs_serVal]
      simp [e1, e2, parseVal_ser v hwv fu _ hv1 (noDigitHead_serFieldsTail fs r),
        parseFieldsTail_ser fs hwfs fu r hv2]
end

mutual
/-- The parser fuel bound: a value's size is at most its serialization length. -/
theorem szV_le_serVal (v : PyVal) : szV v ≤ (serVal v).length := by
  cases v with
  | pnone => simp [szV, serVal]
  | pbool b => cases b <;> simp [szV, serVal]
  | pint n =>
    have h := natChars_ne_nil n.natAbs
    have : 1 ≤ (natChars n.natAbs).length := by
      cases he : natChars n.natAbs with
      | nil => exact absurd he h
      | cons c t => simp
    by_cases hn : n < 0
    · simp [szV, serVal, serInt, hn]
    · simp [szV, serVal, serInt, hn]
      omega
  | pstr s => simp [szV, serVal]
  | parr l =>
    have h := szL_le_serElems l
    simp [szV, serVal]
    omega
  | pobj fs =>
    have h := szF_le_serFields fs
    simp [szV, serVal]
    omega
/-- Fuel bound for serialized list elements. -/
theorem szL_le_serElems (l : PyList) : szL l ≤ (serElems l).length + 1 := by
  cases l with
  | lnil => simp [szL, serElems]
  | lcons x xs =>
    have h1 := szV_le_serVal x
    have h2 := szL_le_serElemsTail xs
    simp [szL, serElems]
    omega
/-- Fuel bound for serialized list element tails. -/
theorem szL_le_serElemsTail (l : PyList) : szL l ≤ (serElemsTail l).length := by
  cases l with
  | lnil => simp [szL, serElemsTail]
  | lcons x xs =>
    have h1 := szV_le_serVal x
    have h2 := szL_le_serElemsTail xs
    simp [szL, serElemsTail]
    omega
/-- Fuel bound for serialized fields. -/
theorem szF_le_serFields (fs : PyFields) : szF fs ≤ (serFields fs).length + 1 := by
  cases fs with
  | fnil => simp [szF, serFields]
  | fcons k v fs =>
    have h1 := szV_le_serVal v
    have h2 := szF_le_serFieldsTail fs
    simp [szF, serFields]
    omega
/-- Fuel bound for serialized field tails. -/
theorem szF_le_serFieldsTail (fs : PyFields) : szF fs ≤ (serFieldsTail fs).length := by
  cases fs with
  | fnil => simp [szF, serFieldsTail]
  | fcons k v fs =>
    have h1 := szV_le_serVal v
    have h2 := szF_le_serFieldsTail fs
    simp [szF, serFieldsTail]
    omega
end

/-- JSON round-trip at the top level: parsing the serialization of any
well-formed value recovers exactly that value. -/
theorem parseJson_serVal (v : PyVal) (hw : wfVal v = true) :
    parseJson (serVal v) = some v := by
  unfold parseJson
  have hskip : skipWs (serVal v) = serVal v := by
    have := skipWs_serVal v []
    simpa using this
  have hfuel : szV v < (serVal v).length + 1 :=
    Nat.lt_succ_of_le (szV_le_serVal v)
  have hparse : parseVal ((serVal v).length + 1) (serVal v) = some (v, []) := by
    have h := parseVal_ser v hw ((serVal v).length + 1) [] hfuel rfl
    simpa using h
  rw [hskip, hparse]
  rfl

/-- A task object is never a key of a proxy-keyed dict. -/
theorem dictGet_ktask_none (d : List (PyKey × PyKey)) (hd : kstrOnly d) (t : Nat) :
    dictGet d (.ktask t) = Option.none := by
  induction d with
  | nil => rfl
  | cons kv d ih =>
    obtain ⟨k, v⟩ := kv
    obtain ⟨s, hs⟩ := hd (k, v) (List.mem_cons_self _ _)
    simp at hs
    subst hs
    have hne : PyKey.kstr s ≠ PyKey.ktask t := by simp
    simp only [dictGet, if_neg hne]
    exact ih (fun kv hkv => hd kv (List.mem_cons_of_mem _ hkv))

/-- Processing any completed task raises `KeyError` at `proxy = tasks[task]`
whenever the tasks dict is proxy-keyed (which the code always maintains). -/
theorem processOne_keyError (results : Nat → Except PyErr PyVal) (st : LoopState)
    (hst : kstrOnly st.tasks) (t : Nat) :
    processOne results st t = .error .keyError := by
  unfold processOne
  rw [dictGet_ktask_none st.tasks hst t]

/-- A non-empty `done` set makes the whole `for task in done:` loop abort with
`KeyError` on its first iteration. -/
theorem forDone_keyError (results : Nat → Except PyErr PyVal) (st : LoopState)
    (hst : kstrOnly st.tasks) (t : Nat) (ts : List Nat) :
    forDone results st (t :: ts) = .error .keyError := by
  unfold forDone
  rw [processOne_keyError results st hst t]

/-- A full polling cycle with at least one completed task terminates with
`KeyError`; with an empty tasks dict it terminates with `ValueError` (from
`asyncio.wait` on an empty set). -/
theorem cycleStep_keyError (results : Nat → Except PyErr PyVal) (st : LoopState)
    (hst : kstrOnly st.tasks) (hne : st.tasks ≠ []) (t : Nat) (ts : List Nat) :
    cycleStep results st (t :: ts) = .error .keyError := by
  unfold cycleStep
  rw [if_neg (by simpa using hne)]
  rw [forDone_keyError results st hst t ts]

/-- The initial tasks dict is proxy-keyed. -/
theorem initTasks_kstrOnly (ps : List String) (f : Nat) : kstrOnly (initTasks ps f) := by
  induction ps generalizing f with
  | nil => intro kv hkv; simp [initTasks] at hkv
  | cons p ps ih =>
    intro kv hkv
    simp only [initTasks, List.mem_cons] at hkv
    cases hkv with
    | inl h => exact ⟨p, by simp [h]⟩
    | inr h => exact ih (f + 1) kv h

/-- The startup loop accumulates exactly the candidates passing validation, in
input order (it is `List.filter`). -/
theorem buildActive_eq_filter (ps : List String) (net : String → Option Nat) :
    buildActive ps net = ps.filter (fun p => is_valid_proxy (net p)) := by
  induction ps with
  | nil => rfl
  | cons p ps ih =>
    by_cases h : is_valid_proxy (net p) = true
    · simp [buildActive, List.filter_cons, h, ih]
    · simp only [Bool.not_eq_true] at h
      simp [buildActive, List.filter_cons, h, ih]

/-- C1: the spec claims a proxy is in at most one of active/backlog and that a
failed task's proxy is removed from active and replaced from the backlog in
the same cycle, preserving `len(active)`.  The code cannot do this: right
after startup every active proxy still sits in `all_proxies` (the list that
replacements pop from), and processing any completed task — here task 0
finishing with the failure outcome `None` — raises `KeyError` at
`proxy = tasks[task]`, because the `tasks` dict is keyed by proxy strings but
indexed with the task object, so no removal or replacement ever happens. -/
theorem c1_pool_replacement_keyError :
    cycleStep (fun _ => .ok PyVal.pnone) (initState ["p1", "p2"] ["p1", "p2"]) [0]
        = .error .keyError
      ∧ (initState ["p1", "p2"] ["p1", "p2"]).active_proxies
          ⊆ (initState ["p1", "p2"] ["p1", "p2"]).all_proxies := by
  constructor
  · rfl
  · intro p hp
    simpa using hp

/-- C2: the spec claims failures reach the control loop only as an
outcome/boolean signal and never terminate the loop.  In the code the
per-proxy task body has no exception handler: a network failure during
session establishment leaves the task completed-with-exception (first
conjunct), and the control loop's processing of any completed task aborts
with an uncaught `KeyError` (second conjunct) — and had the lookup
succeeded, `task.result()` would re-raise the task's own exception inside
the loop. -/
theorem c2_exception_crosses_task_boundary :
    (render_profile_info Option.none ['u', '1'] (.herr .netError) initGlobals).outcome
        = .error .netError
      ∧ forDone (fun _ => .error .netError) (initState ["p1"] ["p1"]) [0]
        = .error .keyError :=
  ⟨rfl, rfl⟩

/-- C3 counterexample: with the backlog empty and the only task completed
with the failure outcome `None`, the claim says the slot is simply not
replaced and the loop continues; the code instead aborts the cycle with
`KeyError` (and a cycle reached with no tasks at all raises `ValueError`
from `asyncio.wait` on an empty set), so the loop does not continue. -/
theorem c3_empty_backlog_counterexample :
    cycleStep (fun _ => .ok PyVal.pnone)
        ⟨[], [PyKey.kstr "p1"], [(PyKey.kstr "p1", PyKey.ktask 0)], 1⟩ [0]
      = .error .keyError
    ∧ cycleStep (fun _ => .ok PyVal.pnone) ⟨[], [], [], 0⟩ [] = .error .valueError :=
  ⟨rfl, rfl⟩

/-- C3 amended: when any task completes (in particular when a failed task's
proxy would need a replacement and the backlog is empty), the polling cycle
does not continue: it terminates with `KeyError` at `proxy = tasks[task]`
before any replacement decision, leaving `active` untouched; and a cycle
whose task set is empty terminates with `ValueError` from `asyncio.wait`. -/
theorem c3_cycle_aborts_amended (results : Nat → Except PyErr PyVal) (st : LoopState)
    (hst : kstrOnly st.tasks) (t : Nat) (ts : List Nat) :
    (st.tasks ≠ [] → cycleStep results st (t :: ts) = .error .keyError)
    ∧ (st.tasks = [] → ∀ done, cycleStep results st done = .error .valueError) := by
  constructor
  · intro hne
    exact cycleStep_keyError results st hst hne t ts
  · intro hemp done
    unfold cycleStep
    rw [if_pos (by simpa using hemp)]

/-- C3 amended, witness. -/
theorem c3_cycle_aborts_amended_witness :
    cycleStep (fun _ => .ok PyVal.pnone)
        ⟨[], [PyKey.kstr "p2"], [(PyKey.kstr "p2", PyKey.ktask 0)], 1⟩ [0, 1]
      = .error .keyError :=
  (c3_cycle_aborts_amended (fun _ => .ok PyVal.pnone)
      ⟨[], [PyKey.kstr "p2"], [(PyKey.kstr "p2", PyKey.ktask 0)], 1⟩
      (by intro kv hkv; simp at hkv; exact ⟨"p2", by simp [hkv]⟩) 0 [1]).1
    (by simp)

/-- C5: at startup the active set is exactly the validated candidates in
input order (`List.filter` of the candidate list), hence non-empty whenever
some candidate validates and of size at most the number of validated
candidates; when no candidate validates (and the token is non-empty so
startup gets that far), the program exits fatally and no polling loop is
ever run, whatever that loop would do. -/
theorem c5_startup_filtering (token : String) (proxies : List String)
    (net : String → Option Nat) (htok : token ≠ "") :
    ((∃ p ∈ proxies, is_valid_proxy (net p) = true) →
      mainStartup token proxies net
          = .ok (proxies.filter (fun p => is_valid_proxy (net p)))
        ∧ 0 < (proxies.filter (fun p => is_valid_proxy (net p))).length)
    ∧ ((∀ p ∈ proxies, is_valid_proxy (net p) = false) →
        ∀ loopFn, mainRun token proxies net loopFn = .error .exitFatal) := by
  constructor
  · intro ⟨p, hp, hv⟩
    have hmem : p ∈ proxies.filter (fun q => is_valid_proxy (net q)) :=
      List.mem_filter.mpr ⟨hp, hv⟩
    have hne : ¬((proxies.filter (fun q => is_valid_proxy (net q))).isEmpty = true) := by
      intro h
      rw [List.isEmpty_iff] at h
      rw [h] at hmem
      simp at hmem
    unfold mainStartup
    rw [if_neg htok, buildActive_eq_filter, if_neg hne]
    exact ⟨rfl, List.length_pos.mpr (by intro h; rw [h] at hmem; simp at hmem)⟩
  · intro hall loopFn
    have hnil : proxies.filter (fun q => is_valid_proxy (net q)) = [] := by
      rw [List.filter_eq_nil_iff]
      intro p hp
      simp [hall p hp]
    unfold mainRun mainStartup
    rw [if_neg htok, buildActive_eq_filter, hnil]
    rfl

/-- C5, witness: one run where p2 fails validation and p1/p3 pass, and one
run where the single candidate's request raises so startup exits fatally. -/
theorem c5_startup_filtering_witness :
    mainStartup "tok" ["p1", "p2", "p3"] (fun p => if p = "p2" then some 500 else some 200)
        = .ok ["p1", "p3"]
      ∧ mainRun "tok" ["p1"] (fun _ => Option.none) (fun _ => .ok Unit.unit)
        = .error .exitFatal := by
  constructor
  · have h := (c5_startup_filtering "tok" ["p1", "p2", "p3"]
        (fun p => if p = "p2" then some 500 else some 200) (by decide)).1
        ⟨"p1", by decide, by decide⟩
    have h1 := h.1
    rw [show (["p1", "p2", "p3"].filter
        (fun p => is_valid_proxy ((fun q => if q = "p2" then some 500 else some 200) p)))
        = ["p1", "p3"] from rfl] at h1
    exact h1
  · exact (c5_startup_filtering "tok" ["p1"] (fun _ => Option.none) (by decide)).2
      (by intro p hp; rfl) (fun _ => .ok Unit.unit)

/-- When `valid_resp` succeeds it returns its argument unchanged. -/
theorem valid_resp_ok_eq (j j' : PyVal) (h : valid_resp j = .ok j') : j' = j := by
  unfold valid_resp at h
  repeat' split at h
  all_goals simp_all

/-- Sufficiency: the success condition forces the heartbeat to return `True`
and set the connection state. -/
theorem handle_ping_success (g : Globals) (http : HttpOut) (st : Nat)
    (h : pingSuccess g http) : handle_ping g http st = (true, CONNECTED) := by
  obtain ⟨⟨u, hu⟩, j, c, hhttp, hv, hc, he⟩ := h
  subst hhttp
  unfold handle_ping
  rw [hu]
  simp [hv, hc, he]

/-- The heartbeat either succeeds (returning `True` with the state set to
`CONNECTED`) or fails (returning `False` with the state unchanged). -/
theorem handle_ping_dichotomy (g : Globals) (http : HttpOut) (st : Nat) :
    handle_ping g http st = (true, CONNECTED) ∨ handle_ping g http st = (false, st) := by
  unfold handle_ping
  cases hu : pyGetMeth g.account_info uidKey with
  | error e => right; simp
  | ok u =>
    cases http with
    | herr e => right; simp
    | hresp status body =>
      by_cases hs : status = 200
      · subst hs
        cases body with
        | error e => right; simp
        | ok j =>
          cases hv : valid_resp j with
          | error e => right; simp [hv]
          | ok j2 =>
            cases hc : pyIndexStr j codeKey with
            | error e => right; simp [hv, hc]
            | ok c =>
              by_cases he : pyEqInt c 0 = true
              · left; simp [hv, hc, he]
              · right; simp [hv, hc, he]
      · right; simp [hs]

/-- Necessity: a `True` return forces the success condition. -/
theorem handle_ping_true_success (g : Globals) (http : HttpOut) (st : Nat)
    (h : (handle_ping g http st).1 = true) : pingSuccess g http := by
  unfold handle_ping at h
  cases hu : pyGetMeth g.account_info uidKey with
  | error e => rw [hu] at h; simp at h
  | ok u =>
    rw [hu] at h
    cases http with
    | herr e => simp at h
    | hresp status body =>
      by_cases hs : status = 200
      · subst hs
        cases body with
        | error e => simp at h
        | ok j =>
          cases hv : valid_resp j with
          | error e => simp [hv] at h
          | ok j2 =>
            have hj : j2 = j := valid_resp_ok_eq j j2 hv
            rw [hj] at hv
            cases hc : pyIndexStr j codeKey with
            | error e => simp [hv, hc] at h
            | ok c =>
              by_cases he : pyEqInt c 0 = true
              · exact ⟨⟨u, hu⟩, j, c, rfl, hv, hc, he⟩
              · simp [hv, hc, he] at h
      · simp [hs] at h

/-- C4: the heartbeat returns its success value (`True`, the code's rendering
of the spec's `Success`) exactly when the request payload was built, the
HTTP layer reported status 200 with a parseable body passing `valid_resp`,
and the status marker Python-equals 0; on success the process-wide
`status_connect` becomes `CONNECTED`, and on every other outcome — an
application-level rejection such as `code: -1` (the spec's `Rejected`) or a
network failure/timeout (the spec's `ProxyUnreachable`), both rendered as
`False` by the code — the connection state is unchanged. -/
theorem c4_heartbeat_classification (g : Globals) (http : HttpOut) (st : Nat) :
    ((handle_ping g http st).1 = true ↔ pingSuccess g http)
    ∧ ((handle_ping g http st).1 = true → (handle_ping g http st).2 = CONNECTED)
    ∧ ((handle_ping g http st).1 = false → (handle_ping g http st).2 = st) := by
  refine ⟨⟨handle_ping_true_success g http st, ?_⟩, ?_, ?_⟩
  · intro hp
    rw [handle_ping_success g http st hp]
  · intro ht
    cases handle_ping_dichotomy g http st with
    | inl h => rw [h]
    | inr h =>
      rw [h] at ht
      simp at ht
  · intro hf
    cases handle_ping_dichotomy g http st with
    | inl h =>
      rw [h] at hf
      simp at hf
    | inr h => rw [h]

/-- C4, witness: the spec's three scenarios — body `code: 0` connects, body
`code: -1` leaves the state unchanged, a network failure leaves the state
unchanged. -/
theorem c4_heartbeat_classification_witness :
    (handle_ping initGlobals (.hresp 200 (.ok (mkObj [(codeKey, PyVal.pint 0)])))
        NONE_CONNECTION).2 = CONNECTED
    ∧ (handle_ping initGlobals (.hresp 200 (.ok (mkObj [(codeKey, PyVal.pint (-1))])))
        NONE_CONNECTION).2 = NONE_CONNECTION
    ∧ (handle_ping initGlobals (.herr .netError) NONE_CONNECTION).2 = NONE_CONNECTION := by
  refine ⟨?_, ?_, ?_⟩
  · exact (c4_heartbeat_classification initGlobals
      (.hresp 200 (.ok (mkObj [(codeKey, PyVal.pint 0)]))) NONE_CONNECTION).2.1 rfl
  · exact (c4_heartbeat_classification initGlobals
      (.hresp 200 (.ok (mkObj [(codeKey, PyVal.pint (-1))]))) NONE_CONNECTION).2.2 rfl
  · exact (c4_heartbeat_classification initGlobals
      (.herr .netError) NONE_CONNECTION).2.2 rfl

/-- C8: SessionStore round-trip — for every well-formed record (strings made
of escape-free printable ASCII, the fragment Python by default serializes
verbatim), saving via `save_session_info` and loading via
`load_session_info` returns the identical record. -/
theorem c8_sessionstore_roundtrip (record : PyVal) (hw : wfVal record = true) :
    load_session_info (save_session_info record) = record := by
  have h := parseJson_serVal record hw
  unfold save_session_info load_session_info
  simp [h]

/-- C8, witness: round-trip of a concrete session record. -/
theorem c8_sessionstore_roundtrip_witness :
    load_session_info (save_session_info (mkObj [(uidKey, .pint 42), (bidKey, .pstr ['u', '1'])]))
      = mkObj [(uidKey, .pint 42), (bidKey, .pstr ['u', '1'])] :=
  c8_sessionstore_roundtrip (mkObj [(uidKey, .pint 42), (bidKey, .pstr ['u', '1'])]) rfl

/-- Establishment behaves the same whatever the (unreadable or absent) file
held: outcome and globals are equal, and the file is either written the same
way by both runs or passed through untouched by both. -/
theorem renderEstablish_file_indep (f1 f2 : Option (List Char)) (fresh : List Char)
    (http : HttpOut) (g : Globals) :
    (renderEstablish f1 fresh http g).outcome = (renderEstablish f2 fresh http g).outcome
    ∧ (renderEstablish f1 fresh http g).g = (renderEstablish f2 fresh http g).g
    ∧ ((renderEstablish f1 fresh http g).file = (renderEstablish f2 fresh http g).file
        ∨ ((renderEstablish f1 fresh http g).file = f1
            ∧ (renderEstablish f2 fresh http g).file = f2)) := by
  unfold renderEstablish
  cases http with
  | herr e => exact ⟨rfl, rfl, .inr ⟨rfl, rfl⟩⟩
  | hresp status body =>
    by_cases hs : status = 200
    · subst hs
      cases body with
      | error e => exact ⟨rfl, rfl, .inr ⟨rfl, rfl⟩⟩
      | ok j =>
        cases hv : valid_resp j with
        | error e => simp [hv]
        | ok j2 =>
          cases hd : pyGetMethD j dataKey (mkObj []) with
          | error e => simp [hv, hd]
          | ok ai =>
            cases hu : pyGetMeth ai uidKey with
            | error e => simp [hv, hd, hu]
            | ok uid =>
              by_cases htu : pyTruthy uid = true
              · simp [hv, hd, hu, htu]
              · simp [hv, hd, hu, htu]
    · simp [hs]

/-- C9: any session file whose contents fail to parse is treated as absent —
`load_session_info` returns `None` rather than raising — and the subsequent
establishment flow is identical to a first run with no file: same outcome,
same globals, and the file either receives the same fresh write in both runs
or is left untouched (the malformed file is not deleted). -/
theorem c9_malformed_session_absent (s : List Char) (hbad : parseJson s = Option.none) :
    load_session_info (some s) = PyVal.pnone
    ∧ ∀ (fresh : List Char) (http : HttpOut) (g : Globals),
        (render_profile_info (some s) fresh http g).outcome
            = (render_profile_info Option.none fresh http g).outcome
        ∧ (render_profile_info (some s) fresh http g).g
            = (render_profile_info Option.none fresh http g).g
        ∧ ((render_profile_info (some s) fresh http g).file
              = (render_profile_info Option.none fresh http g).file
            ∨ ((render_profile_info (some s) fresh http g).file = some s
                ∧ (render_profile_info Option.none fresh http g).file = Option.none)) := by
  have hload : load_session_info (some s) = PyVal.pnone := by
    unfold load_session_info
    simp [hbad]
  refine ⟨hload, ?_⟩
  intro fresh http g
  have h1 : render_profile_info (some s) fresh http g = renderEstablish (some s) fresh http g := by
    unfold render_profile_info
    rw [hload]
    rfl
  have h2 : render_profile_info Option.none fresh http g
      = renderEstablish Option.none fresh http g := rfl
  rw [h1, h2]
  exact renderEstablish_file_indep (some s) Option.none fresh http g

/-- C9, witness: a concrete malformed file. -/
theorem c9_malformed_session_absent_witness :
    load_session_info (some ['x']) = PyVal.pnone
    ∧ (render_profile_info (some ['x']) ['u'] (.herr .netError) initGlobals).outcome
        = (render_profile_info Option.none ['u'] (.herr .netError) initGlobals).outcome := by
  have h := c9_malformed_session_absent ['x'] rfl
  exact ⟨h.1, (h.2 ['u'] (.herr .netError) initGlobals).1⟩

/-- Truthy values are not `None`. -/
theorem isNone_false_of_truthy (v : PyVal) (h : pyTruthy v = true) : isNone v = false := by
  cases v with
  | pnone => simp [pyTruthy] at h
  | pbool b => rfl
  | pint n => rfl
  | pstr s => rfl
  | parr l => rfl
  | pobj fs => rfl

/-- A value whose `.get` method call succeeded is a dict, hence not `None`. -/
theorem pyGetMeth_ok_not_none (v : PyVal) (k : List Char) (u : PyVal)
    (h : pyGetMeth v k = .ok u) : isNone v = false := by
  cases v with
  | pobj fs => rfl
  | pnone => exact absurd h (by simp [pyGetMeth])
  | pbool b => exact absurd h (by simp [pyGetMeth])
  | pint n => exact absurd h (by simp [pyGetMeth])
  | pstr s => exact absurd h (by simp [pyGetMeth])
  | parr l => exact absurd h (by simp [pyGetMeth])

/-- C7 amended: every normal completion of the task body returns the shared
`account_info`, and provided the shared `account_info` is not already `None`
at the start of the call (true on a first run, where it is `{}`; it can only
become `None` through a create-session response whose `data` field is
`null`, a call which itself raises `AttributeError`), the returned value is
never `None`, so the supervisor's `is None` failure test is not satisfied by
a task that completes without raising. -/
theorem c7_not_none_amended (file : Option (List Char)) (fresh : List Char) (http : HttpOut)
    (g : Globals) (hg : isNone g.account_info = false) (v : PyVal)
    (h : (render_profile_info file fresh http g).outcome = .ok v) : isNone v = false := by
  unfold render_profile_info at h
  by_cases ht : pyTruthy (load_session_info file) = true
  · rw [if_pos ht] at h
    cases hb : pyGetMeth (load_session_info file) bidKey with
    | error e => rw [hb] at h; simp at h
    | ok b =>
      rw [hb] at h
      simp at h
      rw [← h]
      exact isNone_false_of_truthy _ ht
  · rw [if_neg ht] at h
    unfold renderEstablish at h
    cases http with
    | herr e => simp at h
    | hresp status body =>
      by_cases hs : status = 200
      · subst hs
        cases body with
        | error e => simp at h
        | ok j =>
          cases hv : valid_resp j with
          | error e => simp [hv] at h
          | ok j2 =>
            cases hdd : pyGetMethD j dataKey (mkObj []) with
            | error e => simp [hv, hdd] at h
            | ok ai =>
              cases hu2 : pyGetMeth ai uidKey with
              | error e => simp [hv, hdd, hu2] at h
              | ok uid =>
                by_cases htu : pyTruthy uid = true
                · simp [hv, hdd, hu2, htu] at h
                  rw [← h]
                  exact pyGetMeth_ok_not_none ai uidKey uid hu2
                · simp [hv, hdd, hu2, htu] at h
                  rw [← h]
                  exact pyGetMeth_ok_not_none ai uidKey uid hu2
      · simp [hs] at h
        rw [← h]
        exact hg

/-- C7 amended, witness: a successful create-session run returns the account
dict, which is not `None`. -/
theorem c7_not_none_amended_witness : isNone (mkObj [(uidKey, PyVal.pint 1)]) = false :=
  c7_not_none_amended Option.none ['u', '1']
    (.hresp 200 (.ok (mkObj [(codeKey, .pint 0), (dataKey, mkObj [(uidKey, .pint 1)])])))
    initGlobals rfl (mkObj [(uidKey, PyVal.pint 1)]) rfl

/-- C7 counterexample: a create-session response `code: 0, data: null` sets
the shared `account_info` to `None` and then raises; a later run of the task
body through a non-200 response then completes normally returning `None` —
a non-raising completion that satisfies the supervisor's `is None` failure
test, contradicting the claim that this can never happen. -/
theorem c7_none_return_counterexample :
    (render_profile_info Option.none ['u', '1']
        (.hresp 200 (.ok (mkObj [(codeKey, PyVal.pint 0), (dataKey, PyVal.pnone)])))
        initGlobals).outcome = .error .attributeError
    ∧ (render_profile_info Option.none ['u', '1']
        (.hresp 200 (.ok (mkObj [(codeKey, PyVal.pint 0), (dataKey, PyVal.pnone)])))
        initGlobals).g.account_info = PyVal.pnone
    ∧ (render_profile_info Option.none ['u', '2'] (.hresp 500 (.ok PyVal.pnone))
        (render_profile_info Option.none ['u', '1']
          (.hresp 200 (.ok (mkObj [(codeKey, PyVal.pint 0), (dataKey, PyVal.pnone)])))
          initGlobals).g).outcome = .ok PyVal.pnone
    ∧ isNone PyVal.pnone = true :=
  ⟨rfl, rfl, rfl, rfl⟩

/-- C6 amended: when a session record is present (truthy), it and its own
`browser_id` field are adopted unchanged and nothing is written; when no
record is present, the freshly generated DeviceIdentity is held only in the
process globals (`browser_id`), and on successful creation the record
persisted is exactly the server-returned account data `d` — the generated
identifier is not added to it, so a later load yields `d`'s own
`browser_id` field (absent unless the server supplied one). -/
theorem c6_device_identity_amended (file : Option (List Char)) (fresh : List Char)
    (http : HttpOut) (g : Globals) :
    (∀ b, pyTruthy (load_session_info file) = true →
        pyGetMeth (load_session_info file) bidKey = .ok b →
        render_profile_info file fresh http g
          = ⟨.ok (load_session_info file), ⟨b, load_session_info file⟩, file⟩)
    ∧ (∀ j d u, pyTruthy (load_session_info file) = false →
        http = .hresp 200 (.ok j) → valid_resp j = .ok j →
        pyGetMethD j dataKey (mkObj []) = .ok d → pyGetMeth d uidKey = .ok u →
        pyTruthy u = true →
        render_profile_info file fresh http g
          = ⟨.ok d, ⟨.pstr fresh, d⟩, save_session_info d⟩) := by
  constructor
  · intro b ht hb
    unfold render_profile_info
    rw [if_pos ht, hb]
  · intro j d u hf hhttp hv hd hu htu
    subst hhttp
    unfold render_profile_info
    rw [if_neg (by simp [hf])]
    unfold renderEstablish
    simp [hv, hd, hu, htu]

/-- C6 amended, witness: adopting a persisted record `{"uid": 1}` sets the
global `browser_id` to the record's (absent) field, i.e. `None`. -/
theorem c6_device_identity_amended_witness :
    render_profile_info (some (serVal (mkObj [(uidKey, PyVal.pint 1)]))) ['u', '2']
        (.herr .netError) initGlobals
      = ⟨.ok (mkObj [(uidKey, PyVal.pint 1)]),
          ⟨PyVal.pnone, mkObj [(uidKey, PyVal.pint 1)]⟩,
          some (serVal (mkObj [(uidKey, PyVal.pint 1)]))⟩ :=
  (c6_device_identity_amended (some (serVal (mkObj [(uidKey, PyVal.pint 1)]))) ['u', '2']
      (.herr .netError) initGlobals).1 PyVal.pnone rfl rfl

/-- C6 counterexample: with no prior record, DeviceIdentity "u1" generated,
and a successful create-session returning account data `{"uid": 1}`, the
saved file holds exactly that data; a subsequent load returns a record whose
`browser_id` is `None`, not the generated "u1" — refuting the claim that
the persisted record carries the generated DeviceIdentity. -/
theorem c6_device_identity_counterexample :
    (render_profile_info Option.none ['u', '1']
        (.hresp 200 (.ok (mkObj [(codeKey, PyVal.pint 0), (dataKey, mkObj [(uidKey, PyVal.pint 1)])])))
        initGlobals).file
      = some (serVal (mkObj [(uidKey, PyVal.pint 1)]))
    ∧ load_session_info (render_profile_info Option.none ['u', '1']
        (.hresp 200 (.ok (mkObj [(codeKey, PyVal.pint 0), (dataKey, mkObj [(uidKey, PyVal.pint 1)])])))
        initGlobals).file
      = mkObj [(uidKey, PyVal.pint 1)]
    ∧ pyGetMeth (mkObj [(uidKey, PyVal.pint 1)]) bidKey = .ok PyVal.pnone
    ∧ PyVal.pnone ≠ PyVal.pstr ['u', '1'] := by
  refine ⟨rfl, rfl, rfl, ?_⟩
  intro h
  exact PyVal.noConfusion h

/-- A dict with a successful key lookup is non-empty, hence truthy. -/
theorem truthy_of_lookup (fs : PyFields) (k : List Char) (v : PyVal)
    (h : lookupField fs k = some v) : pyTruthy (.pobj fs) = true := by
  cases fs with
  | fnil => simp [lookupField] at h
  | fcons k2 v2 fs2 => rfl

/-- C10 amended: over responses that are falsy or dicts with a numeric (or
absent) "code" field, validation raises the invalid-response `ValueError`
exactly when the body is falsy (absent/empty), lacks the "code" marker, or
the marker is negative, and accepts the response (for account-data
extraction) exactly otherwise.  Outside that domain the claim fails: a
non-numeric marker raises `TypeError` (see the counterexample). -/
theorem c10_validation_amended (resp : PyVal) (hdom : codeFieldNumeric resp = true) :
    (valid_resp resp = .error .valueError
        ↔ (pyTruthy resp = false ∨ respLacksCode resp = true ∨ respCodeNegative resp = true))
    ∧ (valid_resp resp = .ok resp
        ↔ (pyTruthy resp = true ∧ respLacksCode resp = false ∧ respCodeNegative resp = false)) := by
  cases resp with
  | pobj fs =>
    cases hlk : lookupField fs codeKey with
    | none =>
      by_cases ht : pyTruthy (.pobj fs) = true
      · have h1 : valid_resp (.pobj fs) = .error .valueError := by
          unfold valid_resp
          simp [ht, pyInStr, hasKey, hlk]
        constructor
        · simp [h1, respLacksCode, hasKey, hlk]
        · simp [h1, respLacksCode, hasKey, hlk]
      · have hf : pyTruthy (.pobj fs) = false := by simpa using ht
        have h1 : valid_resp (.pobj fs) = .error .valueError := by
          unfold valid_resp
          rw [if_pos hf]
        constructor
        · simp [h1, hf]
        · simp [h1, hf]
    | some cv =>
      have ht : pyTruthy (.pobj fs) = true := truthy_of_lookup fs codeKey cv hlk
      cases cv with
      | pint n =>
        have h1 : valid_resp (.pobj fs)
            = (if (n < 0 : Bool) then .error .valueError else .ok (.pobj fs)) := by
          unfold valid_resp
          simp [ht, pyInStr, hasKey, hlk, pyIndexStr, pyLtInt]
        by_cases hn : n < 0
        · constructor
          · simp [h1, hn, ht, respLacksCode, respCodeNegative, hasKey, hlk]
          · simp [h1, hn, ht, respLacksCode, respCodeNegative, hasKey, hlk]
        · constructor
          · simp [h1, hn, ht, respLacksCode, respCodeNegative, hasKey, hlk]
          · simp [h1, hn, ht, respLacksCode, respCodeNegative, hasKey, hlk]
      | pbool b =>
        have h1 : valid_resp (.pobj fs) = .ok (.pobj fs) := by
          unfold valid_resp
          cases b <;> simp [ht, pyInStr, hasKey, hlk, pyIndexStr, pyLtInt]
        constructor
        · simp [h1, ht, respLacksCode, respCodeNegative, hasKey, hlk]
        · simp [h1, ht, respLacksCode, respCodeNegative, hasKey, hlk]
      | pnone => simp [codeFieldNumeric, hlk] at hdom
      | pstr s => simp [codeFieldNumeric, hlk] at hdom
      | parr l => simp [codeFieldNumeric, hlk] at hdom
      | pobj fs2 => simp [codeFieldNumeric, hlk] at hdom
  | pnone =>
    have h1 : valid_resp PyVal.pnone = .error .valueError := rfl
    constructor
    · simp [h1, pyTruthy]
    · simp [h1, pyTruthy]
  | pbool b =>
    have hb : b = false := by simpa [codeFieldNumeric, pyTruthy] using hdom
    subst hb
    constructor
    · simp [valid_resp, pyTruthy, respLacksCode]
    · simp [valid_resp, pyTruthy]
  | pint n =>
    have hn : n = 0 := by simpa [codeFieldNumeric, pyTruthy] using hdom
    subst hn
    constructor
    · simp [valid_resp, pyTruthy, respLacksCode]
    · simp [valid_resp, pyTruthy]
  | pstr s =>
    have hs : s = [] := by simpa [codeFieldNumeric, pyTruthy] using hdom
    subst hs
    constructor
    · simp [valid_resp, pyTruthy, respLacksCode]
    · simp [valid_resp, pyTruthy]
  | parr l =>
    cases l with
    | lnil =>
      constructor
      · simp [valid_resp, pyTruthy, respLacksCode]
      · simp [valid_resp, pyTruthy]
    | lcons x xs => simp [codeFieldNumeric, pyTruthy] at hdom

/-- C10 amended, witness: the ok marker 0 passes validation. -/
theorem c10_validation_amended_witness :
    valid_resp (mkObj [(codeKey, PyVal.pint 0)]) = .ok (mkObj [(codeKey, PyVal.pint 0)]) :=
  (c10_validation_amended (mkObj [(codeKey, PyVal.pint 0)]) rfl).2.mpr ⟨rfl, rfl, rfl⟩

/-- C10 counterexample: `{"code": null}` is present, has the marker field,
and the marker is not negative, so by the claim validation should pass; the
code instead raises `TypeError` from `resp["code"] < 0` (Python cannot
order `None` against `0`), so the response is not accepted. -/
theorem c10_nonnumeric_code_counterexample :
    pyTruthy (mkObj [(codeKey, PyVal.pnone)]) = true
    ∧ pyInStr codeKey (mkObj [(codeKey, PyVal.pnone)]) = .ok true
    ∧ valid_resp (mkObj [(codeKey, PyVal.pnone)]) = .error .typeError
    ∧ valid_resp (mkObj [(codeKey, PyVal.pnone)]) ≠ .ok (mkObj [(codeKey, PyVal.pnone)]) := by
  refine ⟨rfl, rfl, rfl, ?_⟩
  intro h
  rw [show valid_resp (mkObj [(codeKey, PyVal.pnone)]) = Except.error PyErr.typeError from rfl] at h
  exact Except.noConfusion h
